import Mathlib

/-!
# Verification of the alloha linear allocators

Shallow embedding of the address-arithmetic and bookkeeping core of the
alloha repository: the alignment/padding utilities (`src/src/core.c`,
`src/src/stack.c`), the arena allocator (`src/src/arena.c`) and the stack
allocator (`src/src/stack.c`, plus the revision of `stack.c` preserved as
`src/unnamed/part_000`, whose `stack_pop` reports a status flag).

Modelling conventions:

* C `size_t`/`uintptr_t` values are modelled as `Nat`.  The C programs use
  64-bit unsigned arithmetic; all subtractions performed by the code are
  guarded (the guards are reproduced verbatim), so on the states considered
  by the theorems the `Nat` truncated subtraction agrees with the machine
  subtraction.
* A C function that mutates the allocator through a pointer becomes a Lean
  function from the allocator state to (result, new state).  A `void*`
  result is an `Option Nat` (`none` models the null pointer returned on
  failure); an `int`/boolean status is a `Bool`.
* The stack allocator stores a `StackAllocHeader` in the buffer immediately
  before each allocated block and reads it back in `stack_pop`/`stack_free`.
  The buffer is modelled by a map from buffer-relative byte offsets to
  header values (`headers : Nat → StackAllocHeader`); the allocator never
  reads any other byte of the buffer, so the data bytes are not modelled.
  A freshly initialized allocator carries an arbitrary map, modelling the
  uninitialized contents of the backing memory.
-/

set_option autoImplicit false

namespace Alloha

/-- `is_power_of_two` from `include/alloha/core.h`:
`((x) > 0) && !((x) & ((x)-1))`. -/
def is_power_of_two (x : Nat) : Bool :=
  decide (x > 0) && (x &&& (x - 1) == 0)

/-- `align_forward` from `src/src/arena.c` (lines 34-49): returns `0` after
printing an error when `alignment` is not a power of two, otherwise bumps
`ptr` to the next multiple of `alignment`.  The copy in `src/src/core.c`
asserts the power-of-two precondition instead of returning `0`; on every
power-of-two alignment the two revisions compute the same value. -/
def align_forward (ptr : Nat) (alignment : Nat) : Nat :=
  if is_power_of_two alignment then
    let mod := ptr &&& (alignment - 1)
    if mod ≠ 0 then ptr + (alignment - mod) else ptr
  else 0

/-- `DEFAULT_ALIGNMENT` from `include/alloha/core.h`: `2 * sizeof(void*)`,
i.e. 16 bytes on the 64-bit targets the repository builds for. -/
def DEFAULT_ALIGNMENT : Nat := 16

namespace Core

/-- `padding_with_header` from `src/src/core.c` (lines 43-66).  Computes the
padding that aligns `ptr` to `alignment`, then further pads so that the
resulting address is aligned to `header_alignment`, and finally adds
`header_size`.  (The `u32` casts in the source are exact because the
operands are below `2^32`; the model uses `Nat`.) -/
def padding_with_header (ptr alignment header_size header_alignment : Nat) : Nat :=
  let mod := ptr &&& (alignment - 1)
  let padding := if mod ≠ 0 then alignment - mod else 0
  let ptr2 := ptr + padding
  let mod_header := ptr2 &&& (header_alignment - 1)
  let padding2 := if mod_header ≠ 0 then padding + (header_alignment - mod_header) else padding
  padding2 + header_size

end Core

/-! ## Arena allocator (`src/src/arena.c`) -/

/-- Arena allocator state, `ArenaAlloc` from `include/alloha/arena.h`.
`buf` is the base address of the backing buffer. -/
structure ArenaAlloc where
  buf : Nat
  capacity : Nat
  offset : Nat
  previous_offset : Nat
  memory_owner : Bool
  deriving DecidableEq

/-- `arena_init` (lines 15-22 of `arena.c`): borrowed buffer, offsets 0. -/
def arena_init (buf buf_size : Nat) : ArenaAlloc :=
  { buf := buf, capacity := buf_size, offset := 0, previous_offset := 0, memory_owner := false }

/-- `arena_alloc_aligned` (lines 51-69 of `arena.c`).  Returns the block
address and the updated arena, or `none` with the arena untouched when the
request does not fit. -/
def arena_alloc_aligned (arena : ArenaAlloc) (size alignment : Nat) :
    Option Nat × ArenaAlloc :=
  let free_mem_ptr := arena.buf + arena.offset
  let aligned_offset := align_forward free_mem_ptr alignment - arena.buf
  let required_mem := aligned_offset + size
  if required_mem > arena.capacity then (none, arena)
  else
    (some (arena.buf + aligned_offset),
      { arena with previous_offset := aligned_offset, offset := required_mem })

/-- `arena_alloc` (lines 71-73 of `arena.c`). -/
def arena_alloc (arena : ArenaAlloc) (size : Nat) : Option Nat × ArenaAlloc :=
  arena_alloc_aligned arena size DEFAULT_ALIGNMENT

/-- `arena_resize` (lines 75-117 of `arena.c`).  The final branch allocates
a fresh block and copies `min old_mem_size new_size` bytes into it with
`memmove`; buffer bytes are not part of the model, so only the returned
address and offsets are represented. -/
def arena_resize (arena : ArenaAlloc) (old_mem old_mem_size new_size alignment : Nat) :
    Option Nat × ArenaAlloc :=
  if new_size = old_mem_size then (some old_mem, arena)
  else if is_power_of_two alignment = false then (none, arena)
  else if old_mem = 0 then (none, arena)
  else if ¬ (arena.buf ≤ old_mem ∧ old_mem < arena.buf + arena.capacity) then (none, arena)
  else if old_mem = arena.buf + arena.previous_offset then
    (some old_mem, { arena with offset := arena.previous_offset + new_size })
  else arena_alloc_aligned arena new_size alignment

/-- `arena_free_all` (lines 119-122 of `arena.c`). -/
def arena_free_all (arena : ArenaAlloc) : ArenaAlloc :=
  { arena with offset := 0, previous_offset := 0 }

/-- Scratch checkpoint, `TemporaryArenaAlloc` from `arena.h`.  The C struct
also stores the pointer to the parent arena; the model passes the arena
explicitly to `temporary_arena_end` instead. -/
structure TemporaryArenaAlloc where
  saved_offset : Nat
  saved_previous_offset : Nat
  deriving DecidableEq

/-- `temporary_arena_init` (lines 131-138 of `arena.c`). -/
def temporary_arena_init (arena : ArenaAlloc) : TemporaryArenaAlloc :=
  { saved_offset := arena.offset, saved_previous_offset := arena.previous_offset }

/-- `temporary_arena_end` (lines 140-148 of `arena.c`): restores the saved
offsets into the parent arena. -/
def temporary_arena_end (tmp : TemporaryArenaAlloc) (arena : ArenaAlloc) : ArenaAlloc :=
  { arena with offset := tmp.saved_offset, previous_offset := tmp.saved_previous_offset }

/-! ## Stack allocator (`src/src/stack.c`) -/

/-- `StackAllocHeader` from `include/alloha/stack.h`: stored immediately
before each block's usable memory. -/
structure StackAllocHeader where
  padding : Nat
  previous_offset : Nat
  deriving DecidableEq

/-- `k_stack_header_size = sizeof(StackAllocHeader)`: two 8-byte `size_t`
fields on the 64-bit targets the repository builds for. -/
def k_stack_header_size : Nat := 16

/-- Stack allocator state, `StackAlloc` from `include/alloha/stack.h`.
`headers` models the buffer contents read and written by the allocator: the
header value stored at each buffer-relative byte offset (see the module
docstring). -/
structure StackAlloc where
  buf : Nat
  capacity : Nat
  offset : Nat
  previous_offset : Nat
  memory_owner : Bool
  headers : Nat → StackAllocHeader

/-- `stack_init` (lines 17-25 of `stack.c`): borrowed buffer, offsets 0.
`mem` is the arbitrary (uninitialized) content of the fresh buffer. -/
def stack_init (buf buf_size : Nat) (mem : Nat → StackAllocHeader) : StackAlloc :=
  { buf := buf, capacity := buf_size, offset := 0, previous_offset := 0,
    memory_owner := false, headers := mem }

/-- `padding_with_header` from `src/src/stack.c` (lines 37-59, the
three-argument revision used by this `stack_alloc_aligned`): aligns `ptr`
to `alignment` and, if the resulting padding cannot contain the header,
grows it by whole multiples of `alignment` until it can. -/
def padding_with_header (ptr alignment header_size : Nat) : Nat :=
  let mod := ptr &&& (alignment - 1)
  let padding := if mod ≠ 0 then alignment - mod else 0
  if padding < header_size then
    let required := header_size - padding
    if required &&& (alignment - 1) ≠ 0 then
      padding + alignment * (1 + required / alignment)
    else
      padding + alignment * (required / alignment)
  else padding

/-- `stack_alloc_aligned` (lines 61-90 of `stack.c`).  On success it writes
the header at `requested_addr - k_stack_header_size` (buffer-relative
offset `offset + padding - k_stack_header_size`), records the new
`previous_offset = offset + padding`, advances `offset` by
`padding + size`, and returns `requested_addr`. -/
def stack_alloc_aligned (stack : StackAlloc) (size alignment : Nat) :
    Option Nat × StackAlloc :=
  let current_addr := stack.buf + stack.offset
  let padding := padding_with_header current_addr alignment k_stack_header_size
  if padding + size > stack.capacity - stack.offset then (none, stack)
  else
    let requested_addr := current_addr + padding
    (some requested_addr,
      { stack with
          headers := Function.update stack.headers
            (stack.offset + padding - k_stack_header_size)
            { padding := padding, previous_offset := stack.previous_offset },
          previous_offset := stack.offset + padding,
          offset := stack.offset + (padding + size) })

/-- `stack_alloc` (lines 92-94 of `stack.c`). -/
def stack_alloc (stack : StackAlloc) (size : Nat) : Option Nat × StackAlloc :=
  stack_alloc_aligned stack size DEFAULT_ALIGNMENT

/-- `stack_pop` (lines 96-107 of `stack.c`): returns immediately when
`previous_offset = 0`, otherwise reads the header just before
`buf + previous_offset` and rewinds both offsets. -/
def stack_pop (stack : StackAlloc) : StackAlloc :=
  if stack.previous_offset = 0 then stack
  else
    let hdr := stack.headers (stack.previous_offset - k_stack_header_size)
    { stack with
        offset := stack.previous_offset - hdr.padding,
        previous_offset := hdr.previous_offset }

/-- `stack_free` (lines 109-137 of `stack.c`): rejects a null pointer, a
pointer outside `[buf, buf + capacity)`, and a pointer at or above
`buf + offset`; otherwise collapses the stack through the given block using
its header. -/
def stack_free (stack : StackAlloc) (ptr : Nat) : Bool × StackAlloc :=
  if ptr = 0 then (false, stack)
  else if ¬ (stack.buf ≤ ptr ∧ ptr < stack.buf + stack.capacity) then (false, stack)
  else if stack.buf + stack.offset ≤ ptr then (false, stack)
  else
    let hdr := stack.headers (ptr - stack.buf - k_stack_header_size)
    (true,
      { stack with
          offset := ptr - hdr.padding - stack.buf,
          previous_offset := hdr.previous_offset })

/-- `stack_free_all` (lines 139-143 of `stack.c`). -/
def stack_free_all (stack : StackAlloc) : StackAlloc :=
  { stack with offset := 0, previous_offset := 0 }

namespace StackPart0

/-- `stack_pop` from the `src/unnamed/part_000` revision of `stack.c`
(lines 76-88): same rewind, but guarded by `offset == 0` and reporting a
status flag (`ALLOHA_FALSE` on an empty stack, `ALLOHA_TRUE` on success). -/
def stack_pop (stack : StackAlloc) : Bool × StackAlloc :=
  if stack.offset = 0 then (false, stack)
  else
    let hdr := stack.headers (stack.previous_offset - k_stack_header_size)
    (true,
      { stack with
          offset := stack.previous_offset - hdr.padding,
          previous_offset := hdr.previous_offset })

end StackPart0

/-! ## Reachable-state invariants

`ValidChain mem p` says that, starting from a top block whose usable memory
begins at buffer offset `p`, the intrusive header chain stored in `mem` is
well formed: each header reserves at least its own size inside its padding,
its padding fits below its block, the previous block lies below the padding,
and the bottom of the chain rewinds to offset 0.  This is the shape the
headers written by `stack_alloc_aligned` always have, and it is exactly
what `stack_pop`/`stack_free` rely on when they rewind the offsets. -/

inductive ValidChain (mem : Nat → StackAllocHeader) : Nat → Prop
  | nil : ValidChain mem 0
  | cons (p : Nat) (hne : p ≠ 0)
      (hsz : k_stack_header_size ≤ (mem (p - k_stack_header_size)).padding)
      (hle : (mem (p - k_stack_header_size)).padding ≤ p)
      (hprev : (mem (p - k_stack_header_size)).previous_offset ≤
        p - (mem (p - k_stack_header_size)).padding)
      (hzero : (mem (p - k_stack_header_size)).previous_offset = 0 →
        p - (mem (p - k_stack_header_size)).padding = 0)
      (htail : ValidChain mem ((mem (p - k_stack_header_size)).previous_offset)) :
      ValidChain mem p

/-- `InChain mem p r`: buffer offset `r` is the usable-memory offset of one
of the currently live blocks, walking the header chain down from the top
block at offset `p`.  These are the addresses `stack_free` is documented to
accept (any other address is a caller contract violation). -/
inductive InChain (mem : Nat → StackAllocHeader) : Nat → Nat → Prop
  | head (p : Nat) (h : p ≠ 0) : InChain mem p p
  | tail (p r : Nat) (h : p ≠ 0)
      (ht : InChain mem ((mem (p - k_stack_header_size)).previous_offset) r) :
      InChain mem p r

/-- Full invariant of a reachable stack-allocator state. -/
def StackInv (s : StackAlloc) : Prop :=
  s.previous_offset ≤ s.offset ∧ s.offset ≤ s.capacity ∧
    (s.previous_offset = 0 → s.offset = 0) ∧ ValidChain s.headers s.previous_offset

/-- Invariant of the arena allocator claimed by the spec. -/
def ArenaInv (a : ArenaAlloc) : Prop :=
  a.previous_offset ≤ a.offset ∧ a.offset ≤ a.capacity

/-- States of the stack allocator reachable by the public operations, with
each operation used within its documented contract: allocations pass a
power-of-two alignment and a nonzero size (both fatal preconditions in the
source), and `stack_free` is applied to the address of a live block (the
spec declares any other argument undefined behaviour). -/
inductive StackReachable : StackAlloc → Prop
  | init (buf buf_size : Nat) (mem : Nat → StackAllocHeader) :
      StackReachable (stack_init buf buf_size mem)
  | alloc (s : StackAlloc) (size alignment : Nat)
      (hal : is_power_of_two alignment = true) (hsz : 0 < size)
      (h : StackReachable s) : StackReachable (stack_alloc_aligned s size alignment).2
  | pop (s : StackAlloc) (h : StackReachable s) : StackReachable (stack_pop s)
  | free (s : StackAlloc) (r : Nat) (hin : InChain s.headers s.previous_offset r)
      (h : StackReachable s) : StackReachable (stack_free s (s.buf + r)).2
  | reset (s : StackAlloc) (h : StackReachable s) : StackReachable (stack_free_all s)

/-- States of the arena allocator reachable by the public operations (the
`scratch` step restores a checkpoint captured on the same buffer, modelling
`temporary_arena_init`/`temporary_arena_end`). -/
inductive ArenaReachable : ArenaAlloc → Prop
  | init (buf buf_size : Nat) : ArenaReachable (arena_init buf buf_size)
  | alloc (a : ArenaAlloc) (size alignment : Nat)
      (hal : is_power_of_two alignment = true) (h : ArenaReachable a) :
      ArenaReachable (arena_alloc_aligned a size alignment).2
  | resize (a : ArenaAlloc) (old_mem old_mem_size new_size alignment : Nat)
      (h : ArenaReachable a) :
      ArenaReachable (arena_resize a old_mem old_mem_size new_size alignment).2
  | reset (a : ArenaAlloc) (h : ArenaReachable a) : ArenaReachable (arena_free_all a)
  | scratch (cp target : ArenaAlloc) (hcp : ArenaReachable cp) (ht : ArenaReachable target)
      (hbuf : target.buf = cp.buf) (hcap : target.capacity = cp.capacity) :
      ArenaReachable (temporary_arena_end (temporary_arena_init cp) target)

/-- `ArenaReachable`, except that each `arena_resize` call whose arguments
select the unchecked in-place path is required to keep
`previous_offset + new_size` within `capacity`. -/
inductive ArenaReachableSafe : ArenaAlloc → Prop
  | init (buf buf_size : Nat) : ArenaReachableSafe (arena_init buf buf_size)
  | alloc (a : ArenaAlloc) (size alignment : Nat)
      (hal : is_power_of_two alignment = true) (h : ArenaReachableSafe a) :
      ArenaReachableSafe (arena_alloc_aligned a size alignment).2
  | resize (a : ArenaAlloc) (old_mem old_mem_size new_size alignment : Nat)
      (hsafe : old_mem = a.buf + a.previous_offset → new_size ≠ old_mem_size →
        a.previous_offset + new_size ≤ a.capacity)
      (h : ArenaReachableSafe a) :
      ArenaReachableSafe (arena_resize a old_mem old_mem_size new_size alignment).2
  | reset (a : ArenaAlloc) (h : ArenaReachableSafe a) : ArenaReachableSafe (arena_free_all a)
  | scratch (cp target : ArenaAlloc) (hcp : ArenaReachableSafe cp)
      (ht : ArenaReachableSafe target)
      (hbuf : target.buf = cp.buf) (hcap : target.capacity = cp.capacity) :
      ArenaReachableSafe (temporary_arena_end (temporary_arena_init cp) target)

/-! ## Theorems -/

/-- If `x > 0` and `x &&& (x - 1) = 0` then `x` is a power of two (the
converse direction of the bit trick used by `is_power_of_two`). -/
theorem exists_two_pow_of_land_pred :
    ∀ x : Nat, 0 < x → x &&& (x - 1) = 0 → ∃ i, x = 2 ^ i := by
  intro x
  induction x using Nat.strong_induction_on with
  | _ x ih =>
    intro hx h
    rcases Nat.lt_or_ge x 2 with h2 | h2
    · have hx1 : x = 1 := by omega
      exact ⟨0, by simpa using hx1⟩
    · rcases Nat.even_or_odd x with ⟨m, hm⟩ | ⟨m, hm⟩
      · -- even case: `x = 2 * m`; the low bits of `x` and `x - 1` force
        -- `m &&& (m - 1) = 0` and the induction hypothesis applies.
        have hm1 : 1 ≤ m := by omega
        have hml : m &&& (m - 1) = 0 := by
          apply Nat.eq_of_testBit_eq
          intro j
          simp only [Nat.testBit_and, Nat.zero_testBit]
          by_contra hcon
          have hth : m.testBit j = true ∧ (m - 1).testBit j = true := by
            rcases Bool.eq_false_or_eq_true (m.testBit j) with hb | hb <;>
              rcases Bool.eq_false_or_eq_true ((m - 1).testBit j) with hb2 | hb2 <;>
                simp [hb, hb2] at hcon ⊢
          have hxj : x.testBit (j + 1) = true := by
            rw [Nat.testBit_add_one]
            have : x / 2 = m := by omega
            rw [this]; exact hth.1
          have hxj1 : (x - 1).testBit (j + 1) = true := by
            rw [Nat.testBit_add_one]
            have : (x - 1) / 2 = m - 1 := by omega
            rw [this]; exact hth.2
          have : (x &&& (x - 1)).testBit (j + 1) = true := by
            simp [Nat.testBit_and, hxj, hxj1]
          rw [h] at this
          simp at this
        obtain ⟨i, hi⟩ := ih m (by omega) (by omega) hml
        exact ⟨i + 1, by rw [pow_succ]; omega⟩
      · -- odd case with `x ≥ 2` is impossible: some bit of `m` is set and
        -- it appears in both `x = 2*m + 1` and `x - 1 = 2*m`.
        have hm1 : 1 ≤ m := by omega
        obtain ⟨j, hj⟩ := Nat.ne_zero_implies_bit_true (x := m) (by omega)
        have hxj : x.testBit (j + 1) = true := by
          rw [Nat.testBit_add_one]
          have : x / 2 = m := by omega
          rw [this]; exact hj
        have hxj1 : (x - 1).testBit (j + 1) = true := by
          rw [Nat.testBit_add_one]
          have : (x - 1) / 2 = m := by omega
          rw [this]; exact hj
        have : (x &&& (x - 1)).testBit (j + 1) = true := by
          simp [Nat.testBit_and, hxj, hxj1]
        rw [h] at this
        simp at this

/-- `is_power_of_two x = true` yields an exponent. -/
theorem is_power_of_two_spec {x : Nat} (h : is_power_of_two x = true) :
    ∃ i, x = 2 ^ i := by
  have h1 : 0 < x ∧ x &&& (x - 1) = 0 := by
    simpa [is_power_of_two] using h
  exact exists_two_pow_of_land_pred x h1.1 h1.2

/-- Powers of two are positive, so `is_power_of_two` forces positivity. -/
theorem pos_of_is_power_of_two {x : Nat} (h : is_power_of_two x = true) : 0 < x := by
  have h1 : 0 < x ∧ x &&& (x - 1) = 0 := by
    simpa [is_power_of_two] using h
  exact h1.1

/-- On a power-of-two alignment, the bit trick `ptr &&& (alignment - 1)`
computes `ptr % alignment`, and `align_forward` has its arithmetic form. -/
theorem align_forward_eq {x k : Nat} (h : is_power_of_two k = true) :
    align_forward x k = if x % k = 0 then x else x + (k - x % k) := by
  obtain ⟨i, rfl⟩ := is_power_of_two_spec h
  simp only [align_forward, h, if_true, Nat.and_pow_two_sub_one_eq_mod]
  by_cases hm : x % 2 ^ i = 0 <;> simp [hm]

/-- C6: for every address `a` and power-of-two alignment `k`,
`align_forward` is idempotent and its result is `≥ a`, `< a + k`, and a
multiple of `k`. -/
theorem align_forward_spec (a k : Nat) (h : is_power_of_two k = true) :
    align_forward (align_forward a k) k = align_forward a k ∧
      a ≤ align_forward a k ∧ align_forward a k < a + k ∧ k ∣ align_forward a k := by
  have hk : 0 < k := pos_of_is_power_of_two h
  have heq := align_forward_eq (x := a) h
  have hmod : a % k < k := Nat.mod_lt _ hk
  have hdm := Nat.div_add_mod a k
  have hdvd : k ∣ align_forward a k := by
    rw [heq]
    by_cases hm : a % k = 0
    · simp only [hm, if_true]
      exact Nat.dvd_of_mod_eq_zero hm
    · rw [if_neg hm]
      refine ⟨a / k + 1, ?_⟩
      have hms : k * (a / k + 1) = k * (a / k) + k := Nat.mul_succ k (a / k)
      omega
  refine ⟨?_, ?_, ?_, hdvd⟩
  · have hz : align_forward a k % k = 0 := by
      obtain ⟨c, hc⟩ := hdvd
      rw [hc]
      exact Nat.mul_mod_right k c
    rw [align_forward_eq (x := align_forward a k) h, if_pos hz]
  · rw [heq]; by_cases hm : a % k = 0 <;> simp [hm]
  · rw [heq]; by_cases hm : a % k = 0 <;> simp [hm] <;> omega

/-- Concrete instance of `align_forward_spec` at `a = 5`, `k = 8`. -/
theorem align_forward_spec_witness :
    align_forward (align_forward 5 8) 8 = align_forward 5 8 ∧
      5 ≤ align_forward 5 8 ∧ align_forward 5 8 < 5 + 8 ∧ 8 ∣ align_forward 5 8 :=
  align_forward_spec 5 8 (by decide)

/-- Adding the complement of `x % k` (when nonzero) lands on a multiple of
`k` -- the single alignment step shared by `align_forward` and both
`padding_with_header` revisions. -/
theorem add_mod_compl_mod (x k : Nat) (hk : 0 < k) :
    (x + (if x % k ≠ 0 then k - x % k else 0)) % k = 0 := by
  by_cases hm : x % k = 0
  · simp [hm, Nat.add_mod, Nat.mod_self]
  · rw [if_pos hm]
    have hdm := Nat.div_add_mod x k
    have hlt : x % k < k := Nat.mod_lt _ hk
    have hrw : x + (k - x % k) = k * (x / k + 1) := by
      have hms : k * (x / k + 1) = k * (x / k) + k := Nat.mul_succ k (x / k)
      omega
    rw [hrw]
    exact Nat.mul_mod_right k _

namespace Core

/-- C2 (counterexample): at `addr = 0`, `alignment = 32`,
`header_size = 16`, `header_alignment = 8` -- the very header size and
header alignment the stack allocator passes -- the computed padding is 16,
so `(addr + padding) % alignment = 16 ≠ 0`: the claimed postcondition
triple of `padding_with_header` is false. -/
theorem padding_with_header_user_misaligned :
    ¬ (16 ≤ padding_with_header 0 32 16 8 ∧
        (0 + padding_with_header 0 32 16 8) % 32 = 0 ∧
        (0 + padding_with_header 0 32 16 8 - 16) % 8 = 0) := by
  decide

/-- C2 (amended): for power-of-two `alignment` and `header_alignment`, the
padding satisfies `padding ≥ header_size` and
`(addr + padding - header_size) % header_alignment = 0`; the remaining
claimed postcondition `(addr + padding) % alignment = 0` does not hold in
general (see `padding_with_header_user_misaligned`). -/
theorem padding_with_header_partial_postconditions
    (ptr alignment header_size header_alignment : Nat)
    (hal : is_power_of_two alignment = true)
    (hhal : is_power_of_two header_alignment = true) :
    header_size ≤ padding_with_header ptr alignment header_size header_alignment ∧
      (ptr + padding_with_header ptr alignment header_size header_alignment - header_size) %
        header_alignment = 0 := by
  obtain ⟨i, hi⟩ := is_power_of_two_spec hal
  obtain ⟨j, hj⟩ := is_power_of_two_spec hhal
  have hhpos : 0 < header_alignment := pos_of_is_power_of_two hhal
  unfold padding_with_header
  subst hi hj
  simp only [Nat.and_pow_two_sub_one_eq_mod]
  constructor
  · exact Nat.le_add_left _ _
  · have hkey := add_mod_compl_mod (ptr + (if ptr % 2 ^ i ≠ 0 then 2 ^ i - ptr % 2 ^ i else 0))
      (2 ^ j) (by positivity)
    set p1 : Nat := if ptr % 2 ^ i ≠ 0 then 2 ^ i - ptr % 2 ^ i else 0 with hp1
    set p2 : Nat := if (ptr + p1) % 2 ^ j ≠ 0 then 2 ^ j - (ptr + p1) % 2 ^ j else 0 with hp2
    have hshape :
        (if (ptr + p1) % 2 ^ j ≠ 0 then p1 + (2 ^ j - (ptr + p1) % 2 ^ j) else p1) + header_size =
          p1 + p2 + header_size := by
      by_cases hm : (ptr + p1) % 2 ^ j = 0 <;> simp [hp2, hm]
    rw [hshape]
    have : ptr + (p1 + p2 + header_size) - header_size = ptr + p1 + p2 := by omega
    rw [this]
    exact hkey

/-- Concrete instance of `padding_with_header_partial_postconditions` at
`ptr = 3`, `alignment = 8`, `header_size = 16`, `header_alignment = 8`. -/
theorem padding_with_header_partial_postconditions_witness :
    16 ≤ padding_with_header 3 8 16 8 ∧
      (3 + padding_with_header 3 8 16 8 - 16) % 8 = 0 :=
  padding_with_header_partial_postconditions 3 8 16 8 (by decide) (by decide)

end Core

/-- C5: with a power-of-two alignment, `arena_alloc_aligned` fails exactly
when `aligned_offset + size` exceeds `capacity` (leaving the arena
untouched), and otherwise sets `previous_offset = aligned_offset`,
`offset = aligned_offset + size` and returns `buf + aligned_offset`, where
`aligned_offset = align_forward (buf + offset) alignment - buf`. -/
theorem arena_alloc_aligned_spec (a : ArenaAlloc) (size alignment : Nat)
    (_h : is_power_of_two alignment = true) :
    (a.capacity < align_forward (a.buf + a.offset) alignment - a.buf + size →
        arena_alloc_aligned a size alignment = (none, a)) ∧
      (align_forward (a.buf + a.offset) alignment - a.buf + size ≤ a.capacity →
        arena_alloc_aligned a size alignment =
          (some (a.buf + (align_forward (a.buf + a.offset) alignment - a.buf)),
            { a with
                previous_offset := align_forward (a.buf + a.offset) alignment - a.buf,
                offset := align_forward (a.buf + a.offset) alignment - a.buf + size })) := by
  constructor
  · intro hlt
    simp only [arena_alloc_aligned]
    rw [if_pos hlt]
  · intro hle
    simp only [arena_alloc_aligned]
    rw [if_neg (by omega)]

/-- Concrete instance of `arena_alloc_aligned_spec`: arena at base 1024,
capacity 100, offset 3; a 10-byte request at alignment 8 lands at relative
offset 8. -/
theorem arena_alloc_aligned_spec_witness :
    arena_alloc_aligned ⟨1024, 100, 3, 0, false⟩ 10 8 = (some 1032, ⟨1024, 100, 18, 8, false⟩) :=
  (arena_alloc_aligned_spec ⟨1024, 100, 3, 0, false⟩ 10 8 (by decide)).2 (by decide)

/-- C3 (counterexample): the in-place resize path performs no capacity
check.  Arena at base 1024 with capacity 16 and a last block of 8 bytes at
relative offset 0: resizing that block to 100 bytes succeeds and sets
`offset = 100 > capacity = 16` instead of failing. -/
theorem arena_resize_in_place_unchecked :
    arena_resize ⟨1024, 16, 8, 0, false⟩ 1024 8 100 1 = (some 1024, ⟨1024, 16, 100, 0, false⟩) ∧
      (⟨1024, 16, 100, 0, false⟩ : ArenaAlloc).capacity <
        (⟨1024, 16, 100, 0, false⟩ : ArenaAlloc).offset := by
  decide

/-- C3 (amended): when `old_mem` is exactly the most recently allocated
block, `arena_resize` adjusts `offset` to `previous_offset + new_size` in
place and returns the same pointer, copying nothing -- but this path is NOT
bounds-checked against `capacity` (no hypothesis bounding
`previous_offset + new_size` is needed for it to succeed). -/
theorem arena_resize_in_place_spec (a : ArenaAlloc)
    (old_mem old_mem_size new_size alignment : Nat)
    (hns : new_size ≠ old_mem_size)
    (hal : is_power_of_two alignment = true)
    (hnz : old_mem ≠ 0)
    (hlo : a.buf ≤ old_mem) (hhi : old_mem < a.buf + a.capacity)
    (hprev : old_mem = a.buf + a.previous_offset) :
    arena_resize a old_mem old_mem_size new_size alignment =
      (some old_mem, { a with offset := a.previous_offset + new_size }) := by
  simp only [arena_resize]
  rw [if_neg hns, if_neg (by simp [hal]), if_neg hnz,
    if_neg (not_not_intro ⟨hlo, hhi⟩), if_pos hprev]

/-- Concrete instance of `arena_resize_in_place_spec`: shrink-free in-place
growth of the last block from 8 to 20 bytes. -/
theorem arena_resize_in_place_spec_witness :
    arena_resize ⟨1024, 32, 8, 0, false⟩ 1024 8 20 1 = (some 1024, ⟨1024, 32, 20, 0, false⟩) :=
  arena_resize_in_place_spec ⟨1024, 32, 8, 0, false⟩ 1024 8 20 1 (by decide) (by decide)
    (by decide) (by decide) (by decide) (by decide)

/-- C7: for `new_size ≠ old_size`, `arena_resize` reports failure (a null
result) whenever the alignment is not a power of two or `old_mem` lies
outside `[buf, buf + capacity)`, and it leaves the arena unchanged. -/
theorem arena_resize_invalid_fails (a : ArenaAlloc)
    (old_mem old_mem_size new_size alignment : Nat)
    (hns : new_size ≠ old_mem_size)
    (hbad : is_power_of_two alignment = false ∨
      old_mem < a.buf ∨ a.buf + a.capacity ≤ old_mem) :
    (arena_resize a old_mem old_mem_size new_size alignment).1 = none ∧
      (arena_resize a old_mem old_mem_size new_size alignment).2 = a := by
  simp only [arena_resize]
  rw [if_neg hns]
  -- the last two branches would require `old_mem` to be inside the buffer
  -- with a power-of-two alignment, contradicting `hbad`
  split_ifs with h1 h2 h3 h4 <;>
    first
      | exact ⟨rfl, rfl⟩
      | · exfalso
          rcases hbad with hb | hb | hb
          · exact h1 hb
          · omega
          · omega

/-- Concrete instance of `arena_resize_invalid_fails`: `old_mem = 5000`
lies past `buf + capacity = 1040`. -/
theorem arena_resize_invalid_fails_witness :
    (arena_resize ⟨1024, 16, 0, 0, false⟩ 5000 4 8 8).1 = none ∧
      (arena_resize ⟨1024, 16, 0, 0, false⟩ 5000 4 8 8).2 = ⟨1024, 16, 0, 0, false⟩ :=
  arena_resize_invalid_fails ⟨1024, 16, 0, 0, false⟩ 5000 4 8 8 (by decide)
    (Or.inr (Or.inr (by decide)))

/-- C8: on an empty stack (`offset = 0`), `stack_pop` returns the
distinguishable "empty" status `false` and leaves the state (in particular
`offset` and `previous_offset`) unchanged; on a non-empty stack it returns
`true`, so the two outcomes are distinguishable. -/
theorem stack_pop_empty_spec :
    (∀ s : StackAlloc, s.offset = 0 → StackPart0.stack_pop s = (false, s)) ∧
      ∀ s : StackAlloc, s.offset ≠ 0 → (StackPart0.stack_pop s).1 = true := by
  constructor
  · intro s h
    simp only [StackPart0.stack_pop, h, if_pos]
  · intro s h
    simp [StackPart0.stack_pop, h]

/-- Concrete instance of `stack_pop_empty_spec` on a fresh stack. -/
theorem stack_pop_empty_spec_witness :
    StackPart0.stack_pop (stack_init 1024 64 fun _ => ⟨0, 0⟩) =
      (false, stack_init 1024 64 fun _ => ⟨0, 0⟩) :=
  stack_pop_empty_spec.1 (stack_init 1024 64 fun _ => ⟨0, 0⟩) rfl

/-- C9: `stack_free` on any address outside `[buf, buf + capacity)` returns
failure and leaves the stack exactly unchanged. -/
theorem stack_free_out_of_range_spec (s : StackAlloc) (ptr : Nat)
    (h : ptr < s.buf ∨ s.buf + s.capacity ≤ ptr) :
    stack_free s ptr = (false, s) := by
  simp only [stack_free]
  by_cases h0 : ptr = 0
  · rw [if_pos h0]
  · rw [if_neg h0, if_pos (by push_neg; intro hlo; omega)]

/-- Concrete instance of `stack_free_out_of_range_spec`: address 5000 lies
past `buf + capacity = 1088`. -/
theorem stack_free_out_of_range_spec_witness :
    stack_free (stack_init 1024 64 fun _ => ⟨0, 0⟩) 5000 =
      (false, stack_init 1024 64 fun _ => ⟨0, 0⟩) :=
  stack_free_out_of_range_spec (stack_init 1024 64 fun _ => ⟨0, 0⟩) 5000
    (Or.inr (by decide))

/-- For a power-of-two alignment, the padding computed by `stack.c`'s
`padding_with_header` always reserves at least `header_size` bytes. -/
theorem padding_with_header_ge (ptr alignment header_size : Nat)
    (h : is_power_of_two alignment = true) :
    header_size ≤ padding_with_header ptr alignment header_size := by
  obtain ⟨i, rfl⟩ := is_power_of_two_spec h
  have hpos : 0 < 2 ^ i := pow_pos (by norm_num) i
  simp only [padding_with_header, Nat.and_pow_two_sub_one_eq_mod]
  set p1 : Nat := if ptr % 2 ^ i ≠ 0 then 2 ^ i - ptr % 2 ^ i else 0 with hp1
  by_cases hlt : p1 < header_size
  · rw [if_pos hlt]
    set req : Nat := header_size - p1 with hreq
    by_cases hmod : req % 2 ^ i = 0
    · rw [if_neg (not_not_intro hmod)]
      have hcan : 2 ^ i * (req / 2 ^ i) = req :=
        Nat.mul_div_cancel' (Nat.dvd_of_mod_eq_zero hmod)
      omega
    · rw [if_pos hmod]
      have hdm := Nat.div_add_mod req (2 ^ i)
      have hml : req % 2 ^ i < 2 ^ i := Nat.mod_lt _ hpos
      have hexp : 2 ^ i * (1 + req / 2 ^ i) = 2 ^ i + 2 ^ i * (req / 2 ^ i) := by ring
      omega
  · rw [if_neg hlt]
    omega

/-- Inversion of a successful `stack_alloc_aligned`: the capacity guard
passed, the returned address is `buf + offset + padding`, and the new state
has the freshly written header, `previous_offset = offset + padding`, and
`offset` advanced by `padding + size`. -/
theorem stack_alloc_aligned_success {s s' : StackAlloc} {size alignment addr : Nat}
    (h : stack_alloc_aligned s size alignment = (some addr, s')) :
    padding_with_header (s.buf + s.offset) alignment k_stack_header_size + size ≤
        s.capacity - s.offset ∧
      addr = s.buf + s.offset +
        padding_with_header (s.buf + s.offset) alignment k_stack_header_size ∧
      s' = { s with
        headers := Function.update s.headers
          (s.offset + padding_with_header (s.buf + s.offset) alignment k_stack_header_size -
            k_stack_header_size)
          { padding := padding_with_header (s.buf + s.offset) alignment k_stack_header_size,
            previous_offset := s.previous_offset },
        previous_offset :=
          s.offset + padding_with_header (s.buf + s.offset) alignment k_stack_header_size,
        offset := s.offset +
          (padding_with_header (s.buf + s.offset) alignment k_stack_header_size + size) } := by
  simp only [stack_alloc_aligned] at h
  split at h
  · exact absurd h (by simp)
  · next hg =>
    simp only [Prod.mk.injEq, Option.some.injEq] at h
    exact ⟨by omega, h.1.symm, h.2.symm⟩

/-- C4: allocating three blocks A, B, C and popping twice restores
`offset` and `previous_offset` to their values immediately after the
allocation of A alone: each header written by `stack_alloc_aligned` lets
`stack_pop` exactly invert that allocation's effect on the offsets. -/
theorem stack_lifo_three_allocs_two_pops
    (s0 s1 s2 s3 : StackAlloc) (sizeA alA sizeB alB sizeC alC aA aB aC : Nat)
    (halB : is_power_of_two alB = true) (halC : is_power_of_two alC = true)
    (hszB : 0 < sizeB)
    (_hA : stack_alloc_aligned s0 sizeA alA = (some aA, s1))
    (hB : stack_alloc_aligned s1 sizeB alB = (some aB, s2))
    (hC : stack_alloc_aligned s2 sizeC alC = (some aC, s3)) :
    (stack_pop (stack_pop s3)).offset = s1.offset ∧
      (stack_pop (stack_pop s3)).previous_offset = s1.previous_offset := by
  have hk : k_stack_header_size = 16 := rfl
  obtain ⟨-, -, hs2⟩ := stack_alloc_aligned_success hB
  obtain ⟨-, -, hs3⟩ := stack_alloc_aligned_success hC
  set padB := padding_with_header (s1.buf + s1.offset) alB k_stack_header_size with hpadB
  have hgeB : k_stack_header_size ≤ padB := padding_with_header_ge _ _ _ halB
  have h2buf : s2.buf = s1.buf := by rw [hs2]
  have h2off : s2.offset = s1.offset + (padB + sizeB) := by rw [hs2]
  have h2prev : s2.previous_offset = s1.offset + padB := by rw [hs2]
  have h2hdr : s2.headers =
      Function.update s1.headers (s1.offset + padB - k_stack_header_size)
        ⟨padB, s1.previous_offset⟩ := by rw [hs2]
  set padC := padding_with_header (s2.buf + s2.offset) alC k_stack_header_size with hpadC
  have hgeC : k_stack_header_size ≤ padC := padding_with_header_ge _ _ _ halC
  have h3prev : s3.previous_offset = s2.offset + padC := by rw [hs3]
  have h3hdr : s3.headers =
      Function.update s2.headers (s2.offset + padC - k_stack_header_size)
        ⟨padC, s2.previous_offset⟩ := by rw [hs3]
  -- first pop: undoes the allocation of C
  have h3ne : s3.previous_offset ≠ 0 := by omega
  have hreadC : s3.headers (s3.previous_offset - k_stack_header_size) =
      ⟨padC, s2.previous_offset⟩ := by
    have hkey : s3.previous_offset - k_stack_header_size =
        s2.offset + padC - k_stack_header_size := by omega
    rw [h3hdr, hkey]
    exact Function.update_same _ _ _
  have hpop1 : stack_pop s3 =
      { s3 with offset := s2.offset, previous_offset := s2.previous_offset } := by
    simp only [stack_pop, if_neg h3ne, hreadC]
    have hoff : s3.previous_offset - padC = s2.offset := by omega
    rw [hoff]
  -- second pop: undoes the allocation of B
  have h2ne : s2.previous_offset ≠ 0 := by omega
  have hreadB : s3.headers (s2.previous_offset - k_stack_header_size) =
      ⟨padB, s1.previous_offset⟩ := by
    have hkeyB : s2.previous_offset - k_stack_header_size =
        s1.offset + padB - k_stack_header_size := by omega
    have hne : s1.offset + padB - k_stack_header_size ≠
        s2.offset + padC - k_stack_header_size := by omega
    rw [h3hdr, hkeyB, Function.update_noteq hne, h2hdr]
    exact Function.update_same _ _ _
  rw [hpop1]
  simp only [stack_pop, if_neg h2ne]
  simp only [hreadB]
  constructor
  · omega
  · trivial

/-- Concrete instance of `stack_lifo_three_allocs_two_pops`: three 8-byte,
8-aligned allocations from a fresh 1024-byte stack at base 1024, followed
by two pops, restore the offsets of the first allocation (offset 24,
previous offset 16). -/
theorem stack_lifo_three_allocs_two_pops_witness :
    (stack_pop (stack_pop
        ⟨1024, 1024, 72, 64, false,
          Function.update
            (Function.update (Function.update (fun _ => ⟨0, 0⟩) 0 ⟨16, 0⟩) 24 ⟨16, 16⟩)
            48 ⟨16, 40⟩⟩)).offset =
      (⟨1024, 1024, 24, 16, false,
          Function.update (fun _ => ⟨0, 0⟩) 0 ⟨16, 0⟩⟩ : StackAlloc).offset ∧
    (stack_pop (stack_pop
        ⟨1024, 1024, 72, 64, false,
          Function.update
            (Function.update (Function.update (fun _ => ⟨0, 0⟩) 0 ⟨16, 0⟩) 24 ⟨16, 16⟩)
            48 ⟨16, 40⟩⟩)).previous_offset =
      (⟨1024, 1024, 24, 16, false,
          Function.update (fun _ => ⟨0, 0⟩) 0 ⟨16, 0⟩⟩ : StackAlloc).previous_offset :=
  stack_lifo_three_allocs_two_pops
    (stack_init 1024 1024 fun _ => ⟨0, 0⟩)
    ⟨1024, 1024, 24, 16, false, Function.update (fun _ => ⟨0, 0⟩) 0 ⟨16, 0⟩⟩
    ⟨1024, 1024, 48, 40, false,
      Function.update (Function.update (fun _ => ⟨0, 0⟩) 0 ⟨16, 0⟩) 24 ⟨16, 16⟩⟩
    ⟨1024, 1024, 72, 64, false,
      Function.update
        (Function.update (Function.update (fun _ => ⟨0, 0⟩) 0 ⟨16, 0⟩) 24 ⟨16, 16⟩)
        48 ⟨16, 40⟩⟩
    8 8 8 8 8 8 1040 1064 1088
    (by decide) (by decide) (by decide) rfl rfl rfl

/-- Inversion of `ValidChain` at a nonzero top offset. -/
theorem ValidChain.fields {mem : Nat → StackAllocHeader} {p : Nat}
    (h : ValidChain mem p) (hne : p ≠ 0) :
    k_stack_header_size ≤ (mem (p - k_stack_header_size)).padding ∧
      (mem (p - k_stack_header_size)).padding ≤ p ∧
      (mem (p - k_stack_header_size)).previous_offset ≤
        p - (mem (p - k_stack_header_size)).padding ∧
      ((mem (p - k_stack_header_size)).previous_offset = 0 →
        p - (mem (p - k_stack_header_size)).padding = 0) ∧
      ValidChain mem ((mem (p - k_stack_header_size)).previous_offset) := by
  cases h with
  | nil => exact absurd rfl hne
  | cons p hne2 hsz hle hprev hzero htail => exact ⟨hsz, hle, hprev, hzero, htail⟩

/-- Chain members sit at or below the top offset. -/
theorem inChain_le {mem : Nat → StackAllocHeader} {p r : Nat} (hin : InChain mem p r) :
    ValidChain mem p → r ≤ p := by
  induction hin with
  | head p h => exact fun _ => le_refl p
  | tail p r h ht ih =>
    intro hv
    have hf := ValidChain.fields hv h
    have := ih hf.2.2.2.2
    omega

/-- A chain member is nonzero and heads a valid chain itself. -/
theorem inChain_valid {mem : Nat → StackAllocHeader} {p r : Nat} (hin : InChain mem p r) :
    ValidChain mem p → r ≠ 0 ∧ ValidChain mem r := by
  induction hin with
  | head p h => exact fun hv => ⟨h, hv⟩
  | tail p r h ht ih => exact fun hv => ih (ValidChain.fields hv h).2.2.2.2

/-- Writing a header at or above the top offset leaves the chain below
intact: every header of the chain lives strictly below the top offset. -/
theorem valid_chain_update {mem : Nat → StackAllocHeader} {p : Nat}
    (u : Nat) (v : StackAllocHeader) (hv : ValidChain mem p) :
    p ≤ u → ValidChain (Function.update mem u v) p := by
  induction hv with
  | nil => exact fun _ => ValidChain.nil
  | cons p hne hsz hle hprev hzero htail ih =>
    intro hpu
    have hk : k_stack_header_size = 16 := rfl
    have hkey : p - k_stack_header_size ≠ u := by omega
    have hread : Function.update mem u v (p - k_stack_header_size) =
        mem (p - k_stack_header_size) := Function.update_noteq hkey _ _
    refine ValidChain.cons p hne ?_ ?_ ?_ ?_ ?_ <;> rw [hread]
    · exact hsz
    · exact hle
    · exact hprev
    · exact hzero
    · refine ih ?_
      have hf := hprev
      omega

/-- `stack_alloc_aligned` preserves the stack invariant (with the
power-of-two alignment its fatal precondition demands). -/
theorem stack_inv_alloc (s : StackAlloc) (size alignment : Nat)
    (hal : is_power_of_two alignment = true) (hinv : StackInv s) :
    StackInv (stack_alloc_aligned s size alignment).2 := by
  obtain ⟨h1, h2, h3, h4⟩ := hinv
  have hk : k_stack_header_size = 16 := rfl
  simp only [stack_alloc_aligned]
  set pad := padding_with_header (s.buf + s.offset) alignment k_stack_header_size with hpad
  have hge : k_stack_header_size ≤ pad := padding_with_header_ge _ _ _ hal
  split
  · exact ⟨h1, h2, h3, h4⟩
  · next hg =>
    push_neg at hg
    simp only [StackInv]
    refine ⟨by omega, by omega, by intro hz; omega, ?_⟩
    refine ValidChain.cons (s.offset + pad) (by omega) ?_ ?_ ?_ ?_ ?_ <;>
      simp only [Function.update_same]
    · exact hge
    · omega
    · omega
    · intro hz0
      have := h3 hz0
      omega
    · exact valid_chain_update _ _ h4 (by omega)

/-- `stack_pop` preserves the stack invariant. -/
theorem stack_inv_pop (s : StackAlloc) (hinv : StackInv s) : StackInv (stack_pop s) := by
  obtain ⟨h1, h2, h3, h4⟩ := hinv
  simp only [stack_pop]
  split
  · exact ⟨h1, h2, h3, h4⟩
  · next hne =>
    have hf := ValidChain.fields h4 hne
    simp only [StackInv]
    exact ⟨hf.2.2.1, by omega, hf.2.2.2.1, hf.2.2.2.2⟩

/-- `stack_free` on a live block address preserves the stack invariant. -/
theorem stack_inv_free (s : StackAlloc) (r : Nat)
    (hin : InChain s.headers s.previous_offset r) (hinv : StackInv s) :
    StackInv (stack_free s (s.buf + r)).2 := by
  obtain ⟨h1, h2, h3, h4⟩ := hinv
  have hk : k_stack_header_size = 16 := rfl
  have hrne : r ≠ 0 := (inChain_valid hin h4).1
  have hrv : ValidChain s.headers r := (inChain_valid hin h4).2
  have hrle : r ≤ s.previous_offset := inChain_le hin h4
  have hf := ValidChain.fields hrv hrne
  simp only [stack_free]
  split_ifs with hz hrange hfree
  · exact ⟨h1, h2, h3, h4⟩
  · exact ⟨h1, h2, h3, h4⟩
  · -- success branch: `split_ifs` visits the range check's positive side
    -- first, so this is the third goal
    simp only [StackInv]
    have hkey : s.buf + r - s.buf - k_stack_header_size = r - k_stack_header_size := by omega
    rw [hkey]
    have hoff : s.buf + r - (s.headers (r - k_stack_header_size)).padding - s.buf =
        r - (s.headers (r - k_stack_header_size)).padding := by omega
    rw [hoff]
    exact ⟨hf.2.2.1, by omega, hf.2.2.2.1, hf.2.2.2.2⟩
  · exact ⟨h1, h2, h3, h4⟩

/-- Every reachable stack state satisfies the full invariant. -/
theorem stack_reachable_inv {s : StackAlloc} (h : StackReachable s) : StackInv s := by
  induction h with
  | init buf buf_size mem => exact ⟨le_refl 0, Nat.zero_le _, fun _ => rfl, ValidChain.nil⟩
  | alloc s size alignment hal hsz hr ih => exact stack_inv_alloc s size alignment hal ih
  | pop s hr ih => exact stack_inv_pop s ih
  | free s r hin hr ih => exact stack_inv_free s r hin ih
  | reset s hr ih => exact ⟨le_refl 0, Nat.zero_le _, fun _ => rfl, ValidChain.nil⟩

/-- `arena_alloc_aligned` preserves the arena invariant. -/
theorem arena_inv_alloc (a : ArenaAlloc) (size alignment : Nat) (hinv : ArenaInv a) :
    ArenaInv (arena_alloc_aligned a size alignment).2 := by
  obtain ⟨h1, h2⟩ := hinv
  simp only [arena_alloc_aligned]
  split
  · exact ⟨h1, h2⟩
  · next hg =>
    simp only [ArenaInv]
    omega

/-- `arena_resize` preserves the arena invariant provided the in-place path,
when selected, stays within capacity (the path itself performs no check). -/
theorem arena_inv_resize (a : ArenaAlloc) (old_mem old_mem_size new_size alignment : Nat)
    (hsafe : old_mem = a.buf + a.previous_offset → new_size ≠ old_mem_size →
      a.previous_offset + new_size ≤ a.capacity)
    (hinv : ArenaInv a) :
    ArenaInv (arena_resize a old_mem old_mem_size new_size alignment).2 := by
  obtain ⟨g1, g2⟩ := hinv
  simp only [arena_resize]
  split_ifs with h1 h2 h3 h4 h5
  · exact ⟨g1, g2⟩
  · exact ⟨g1, g2⟩
  · exact ⟨g1, g2⟩
  · -- in-place path (`split_ifs` visits the range check's positive side
    -- first, so this is the fourth goal)
    have hcap := hsafe h5 h1
    simp only [ArenaInv]
    omega
  · exact arena_inv_alloc a new_size alignment ⟨g1, g2⟩
  · exact ⟨g1, g2⟩

/-- Every safely-reachable arena state satisfies the arena invariant. -/
theorem arena_safe_inv {a : ArenaAlloc} (h : ArenaReachableSafe a) : ArenaInv a := by
  induction h with
  | init buf buf_size => exact ⟨le_refl 0, Nat.zero_le _⟩
  | alloc a size alignment hal hr ih => exact arena_inv_alloc a size alignment ih
  | resize a old_mem old_mem_size new_size alignment hsafe hr ih =>
    exact arena_inv_resize a old_mem old_mem_size new_size alignment hsafe ih
  | reset a hr ih => exact ⟨le_refl 0, Nat.zero_le _⟩
  | scratch cp target hcp ht hbuf hcap ihcp ihtg =>
    refine ⟨ihcp.1, ?_⟩
    show cp.offset ≤ target.capacity
    rw [hcap]
    exact ihcp.2

/-- C1 (counterexample): the invariant `previous_offset ≤ offset ≤ capacity`
is NOT maintained across all public operations.  From a fresh 16-byte arena
at base 1024, allocate 8 bytes and then resize that block to 100 bytes: the
unchecked in-place path of `arena_resize` yields a reachable state with
`offset = 100 > capacity = 16`. -/
theorem arena_reachable_invariant_violated :
    ArenaReachable (arena_resize (arena_alloc_aligned (arena_init 1024 16) 8 1).2
        1024 8 100 1).2 ∧
      ¬ ((arena_resize (arena_alloc_aligned (arena_init 1024 16) 8 1).2
            1024 8 100 1).2.offset ≤
          (arena_resize (arena_alloc_aligned (arena_init 1024 16) 8 1).2
            1024 8 100 1).2.capacity) := by
  constructor
  · exact ArenaReachable.resize _ 1024 8 100 1
      (ArenaReachable.alloc _ 8 1 (by decide) (ArenaReachable.init 1024 16))
  · decide

/-- C1 (amended): `0 ≤ previous_offset ≤ offset ≤ capacity` holds in every
state reachable by the public operations used within their contracts,
PROVIDED each `arena_resize` call hitting the unchecked in-place path keeps
`previous_offset + new_size ≤ capacity`; without that proviso the arena
invariant fails (see `arena_reachable_invariant_violated`). -/
theorem allocator_offset_invariant :
    (∀ a : ArenaAlloc, ArenaReachableSafe a →
        a.previous_offset ≤ a.offset ∧ a.offset ≤ a.capacity) ∧
      ∀ s : StackAlloc, StackReachable s →
        s.previous_offset ≤ s.offset ∧ s.offset ≤ s.capacity :=
  ⟨fun _ h => arena_safe_inv h,
    fun _ h => ⟨(stack_reachable_inv h).1, (stack_reachable_inv h).2.1⟩⟩

/-- Concrete instance of `allocator_offset_invariant` on freshly
initialized allocators. -/
theorem allocator_offset_invariant_witness :
    ((arena_init 512 64).previous_offset ≤ (arena_init 512 64).offset ∧
        (arena_init 512 64).offset ≤ (arena_init 512 64).capacity) ∧
      ((stack_init 512 64 fun _ => ⟨0, 0⟩).previous_offset ≤
          (stack_init 512 64 fun _ => ⟨0, 0⟩).offset ∧
        (stack_init 512 64 fun _ => ⟨0, 0⟩).offset ≤
          (stack_init 512 64 fun _ => ⟨0, 0⟩).capacity) :=
  ⟨allocator_offset_invariant.1 _ (ArenaReachableSafe.init 512 64),
    allocator_offset_invariant.2 _ (StackReachable.init 512 64 fun _ => ⟨0, 0⟩)⟩

/-- C10: in every reachable stack state, `previous_offset` is either 0 or
at least `k_stack_header_size` (and at most `capacity`), so the header read
by `stack_pop`/`stack_free` at `previous_offset - k_stack_header_size` lies
inside the buffer: every successful allocation uses a padding of at least
the header size and sets `previous_offset = offset + padding`. -/
theorem stack_previous_offset_zero_or_ge_header (s : StackAlloc) (h : StackReachable s) :
    s.previous_offset = 0 ∨
      (k_stack_header_size ≤ s.previous_offset ∧ s.previous_offset ≤ s.capacity) := by
  obtain ⟨h1, h2, h3, h4⟩ := stack_reachable_inv h
  by_cases hz : s.previous_offset = 0
  · exact Or.inl hz
  · have hf := ValidChain.fields h4 hz
    exact Or.inr ⟨by omega, by omega⟩

/-- Concrete instance of `stack_previous_offset_zero_or_ge_header` after
one allocation from a fresh stack. -/
theorem stack_previous_offset_zero_or_ge_header_witness :
    (stack_alloc_aligned (stack_init 1024 1024 fun _ => ⟨0, 0⟩) 8 8).2.previous_offset = 0 ∨
      (k_stack_header_size ≤
          (stack_alloc_aligned (stack_init 1024 1024 fun _ => ⟨0, 0⟩) 8 8).2.previous_offset ∧
        (stack_alloc_aligned (stack_init 1024 1024 fun _ => ⟨0, 0⟩) 8 8).2.previous_offset ≤
          (stack_alloc_aligned (stack_init 1024 1024 fun _ => ⟨0, 0⟩) 8 8).2.capacity) :=
  stack_previous_offset_zero_or_ge_header _
    (StackReachable.alloc _ 8 8 (by decide) (by decide)
      (StackReachable.init 1024 1024 fun _ => ⟨0, 0⟩))

end Alloha
